import Mathlib

/-!
Verification of the backlog-ledger arithmetic of `src/backlog_app.py`
(JEE backlog tracker).

Modelling conventions.

* Calendar dates carry no time component and only their day arithmetic and
  weekday matter, so a date is embedded as its day number (an `Int`): the
  Python expression `(today - last).days` becomes `today - last`, and
  `date.weekday()` (Monday = 0, ..., Sunday = 6) becomes `Int.emod d 7`,
  the epoch (day 0) being chosen to be a Monday.  Under this choice
  2024-01-01, a Monday, is day 0 and 2024-01-08 is day 7.
* A pandas `DataFrame` row `(Subject, Number of Lectures, Last Updated)`
  becomes a `Record`; the frame becomes a `List Record` in row order.
  In-place mutation of the frame becomes returning the new list.
* `math.ceil(b * 7 / net)`: for the integer operands involved the Python
  float division is exact enough that the result is the rational ceiling,
  which is how it is embedded; `math.inf` becomes `Estimate.infinite`, and
  the NaN that Python produces for `math.inf // 7` becomes `Estimate.nan`.
* The Streamlit/gspread I/O of `save_backlog` and `log_history` is embedded
  by outcome: booleans say whether a worksheet client is present and whether
  its calls raise, and a `SyncReport` records what the function then does
  (local write, warning, exception propagated to the caller).
-/

/-- A backlog row of the frame: `Subject`, `Number of Lectures`
(a Python int, hence `Int`), `Last Updated` (a date, as a day number). -/
structure Record where
  subject : String
  lectures : Int
  lastUpdated : Int
deriving DecidableEq, Repr

/-- Python `date.weekday()` for a day number: Monday = 0, ..., Sunday = 6.
`Int.emod` matches Python `%` (result in `[0, 7)`). -/
def weekday (d : Int) : Int :=
  Int.emod d 7

/-- The day-by-day scan of `auto_increment` (backlog_app.py lines 92-96):
`sum(1 for d in range(1, days + 1) if (last + timedelta(days=d)).weekday() != 6)`.
Counts the non-Sunday days among `last + 1, ..., last + days`. -/
def countInc (last : Int) (days : Nat) : Nat :=
  (List.range' 1 days).countP (fun (d : Nat) => weekday (last + (d : Int)) != 6)

/-- The body of the `auto_increment` loop (lines 88-100) for one row:
if `days > 0` and the scan finds a positive increment, add it to the
lectures and stamp `Last Updated = today`; otherwise leave the row alone. -/
def accrue_record (today : Int) (r : Record) : Record :=
  let days := today - r.lastUpdated
  if days > 0 then
    let inc := countInc r.lastUpdated days.toNat
    if inc ≠ 0 then
      { subject := r.subject, lectures := r.lectures + (inc : Int), lastUpdated := today }
    else r
  else r

/-- `auto_increment` (lines 83-104): a no-op when today is Sunday
(`today.weekday() == 6`), otherwise the per-row accrual applied to every
row.  The trailing `save_backlog` / `log_history` calls are I/O on the
unchanged result and are embedded separately. -/
def auto_increment (df : List Record) (today : Int) : List Record :=
  if weekday today = 6 then df
  else df.map (accrue_record today)

/-- `mark_done` (lines 106-118): locate the first row of `subject`
(`df.index[df["Subject"] == subject][0]`, an `IndexError` — `none` — when
absent), then set its lectures to `max(0, curr - done)` on Sunday and
`max(0, curr - (done - 1))` on a weekday, and stamp `Last Updated = today`. -/
def mark_done (df : List Record) (subject : String) (done : Int) (today : Int) :
    Option (List Record) :=
  match df.findIdx? (fun r => r.subject == subject) with
  | none => none
  | some idx =>
    match df[idx]? with
    | none => none
    | some r =>
      let new := if weekday today = 6 then max 0 (r.lectures - done)
                 else max 0 (r.lectures - (done - 1))
      some (df.set idx { subject := r.subject, lectures := new, lastUpdated := today })

/-- A `Days` or `Weeks~` cell of `estimate_days`: `math.inf`, a float NaN
(which is what Python's `math.inf // 7` evaluates to), or a finite
integer. -/
inductive Estimate where
  | infinite : Estimate
  | nan : Estimate
  | finite : Int → Estimate
deriving DecidableEq, Repr

/-- Python `// 7` applied to a `Days` value: floor division on a finite
int, while on the float infinity `math.inf // 7` evaluates to `nan`
(and `nan // 7` stays `nan`). -/
def floordiv7 : Estimate → Estimate
  | Estimate.infinite => Estimate.nan
  | Estimate.nan => Estimate.nan
  | Estimate.finite n => Estimate.finite (Int.fdiv n 7)

/-- One output row of `estimate_days`: `{"Subject": ..., "Days": ..., "Weeks~": ...}`. -/
structure EstRow where
  subject : String
  days : Estimate
  weeks : Estimate
deriving DecidableEq, Repr

/-- `estimate_days` (lines 120-130): `net_weekly = pace * 7 - 6`; per row,
`Days` is `math.inf` when `net_weekly <= 0` and `math.ceil(b * 7 / net_weekly)`
otherwise, and `Weeks~` is `Days // 7`. -/
def estimate_days (df : List Record) (pace : Int) : List EstRow :=
  let net_weekly := pace * 7 - 6
  df.map (fun r =>
    let days : Estimate :=
      if net_weekly ≤ 0 then Estimate.infinite
      else Estimate.finite ⌈((r.lectures * 7 : Int) : ℚ) / ((net_weekly : Int) : ℚ)⌉
    { subject := r.subject, days := days, weeks := floordiv7 days })

/-- The two rejection branches of the add-subject form (lines 168-177):
`st.warning("Enter a subject.")` and `st.warning("Subject exists.")`. -/
inductive AddErr where
  | emptySubject : AddErr
  | duplicateSubject : AddErr
deriving DecidableEq, Repr

/-- The submit handler of the add-subject form (lines 168-177): reject an
empty (post-`strip`) name, reject a name already in `data["Subject"]`
(case-sensitive `in` on the exact strings), otherwise append the row
`[ns, nb, today]`.  An `error` result leaves `st.session_state.data`
unassigned, i.e. the record set unchanged. -/
def add_form (df : List Record) (ns : String) (nb : Int) (today : Int) :
    Except AddErr (List Record) :=
  if ns = "" then Except.error AddErr.emptySubject
  else if df.any (fun r => r.subject == ns) then Except.error AddErr.duplicateSubject
  else Except.ok (df ++ [{ subject := ns, lectures := nb, lastUpdated := today }])

deriving instance DecidableEq for Except

/-- A report of what one call of `save_backlog` or `log_history` did with
its I/O: whether the local CSV was (re)written, whether a Sheets write was
attempted and raised, whether `st.warning` was shown, and whether any
exception escaped to the caller. -/
structure SyncReport where
  csvWritten : Bool
  sheetAttempted : Bool
  sheetFailed : Bool
  warned : Bool
  raised : Bool
deriving DecidableEq, Repr

/-- `save_backlog` (lines 50-60): always writes the local CSV; when a
worksheet client `ws` is present it attempts the Sheets sync inside a
`try/except Exception` whose handler shows `st.warning` and falls through,
so the function returns normally whether or not the sync raised.
`wsPresent` models `ws` being non-`None`; `sheetFails` models the gspread
calls raising. -/
def save_backlog (wsPresent : Bool) (sheetFails : Bool) : SyncReport :=
  if wsPresent then
    if sheetFails then
      { csvWritten := true, sheetAttempted := true, sheetFailed := true,
        warned := true, raised := false }
    else
      { csvWritten := true, sheetAttempted := true, sheetFailed := false,
        warned := false, raised := false }
  else
    { csvWritten := true, sheetAttempted := false, sheetFailed := false,
      warned := false, raised := false }

/-- `log_history` (lines 66-80): when the history is empty or its last
row's date differs from today, append `(today, total)` and write the CSV,
then, if a history worksheet is present, attempt the Sheets sync inside a
bare `except: pass` — a failure there is discarded with no warning and no
exception.  Otherwise nothing is written.  The history is a list of
`(date, total)` rows; the returned list is the new history. -/
def log_history (h : List (Int × Int)) (today : Int) (total : Int)
    (histWsPresent : Bool) (sheetFails : Bool) : SyncReport × List (Int × Int) :=
  if h = [] ∨ (h.getLast?).map Prod.fst ≠ some today then
    let rep : SyncReport :=
      if histWsPresent then
        if sheetFails then
          { csvWritten := true, sheetAttempted := true, sheetFailed := true,
            warned := false, raised := false }
        else
          { csvWritten := true, sheetAttempted := true, sheetFailed := false,
            warned := false, raised := false }
      else
        { csvWritten := true, sheetAttempted := false, sheetFailed := false,
          warned := false, raised := false }
    (rep, h ++ [(today, total)])
  else
    ({ csvWritten := false, sheetAttempted := false, sheetFailed := false,
       warned := false, raised := false }, h)

-- sanity checks on concrete inputs
example : countInc 0 7 = 6 := by decide
example : auto_increment [⟨"Math", 5, 0⟩] 7 = [⟨"Math", 11, 7⟩] := by decide
example : auto_increment [⟨"Math", 5, 0⟩] 6 = [⟨"Math", 5, 0⟩] := by decide
example : mark_done [⟨"Math", 5, 0⟩] "Math" 0 1 = some [⟨"Math", 6, 1⟩] := by decide
example : mark_done [⟨"Math", 5, 0⟩] "Math" 2 6 = some [⟨"Math", 3, 6⟩] := by decide
example : estimate_days [⟨"M", 70, 0⟩] 2 =
    [⟨"M", Estimate.finite 62, Estimate.finite 8⟩] := by
  have h : ⌈(70 * 7 / 8 : ℚ)⌉ = 62 := by
    rw [Int.ceil_eq_iff]
    norm_num
  simp [estimate_days, floordiv7]
  refine ⟨h, ?_⟩
  rw [h]
  decide
example : estimate_days [⟨"M", 5, 0⟩] 0 =
    [⟨"M", Estimate.infinite, Estimate.nan⟩] := by decide
example : add_form [⟨"Physics", 3, 0⟩] "Physics" 5 1 =
    Except.error AddErr.duplicateSubject := by decide
example : add_form [] "" 3 0 = Except.error AddErr.emptySubject := by decide

/-! ## Helper lemmas -/

lemma Ioc_int_succ_right (a b : Int) (h : a ≤ b) :
    Finset.Ioc a (b + 1) = insert (b + 1) (Finset.Ioc a b) := by
  ext x
  simp only [Finset.mem_Ioc, Finset.mem_insert]
  omega

/-- The day-by-day scan of `auto_increment` counts exactly the non-rest
days of the open-closed interval `(last, last + days]`. -/
lemma countInc_eq_card (last : Int) (days : Nat) :
    countInc last days =
      ((Finset.Ioc last (last + (days : Int))).filter (fun x => weekday x ≠ 6)).card := by
  induction days with
  | zero => simp [countInc]
  | succ n ih =>
    have hcast : (last + ((n + 1 : Nat) : Int)) = (last + (n : Int)) + 1 := by
      push_cast
      ring
    rw [countInc, List.range'_concat, List.countP_append, hcast,
      Ioc_int_succ_right _ _ (by omega), Finset.filter_insert]
    have helt : ((1 + 1 * n : Nat) : Int) = (n : Int) + 1 := by
      push_cast
      ring
    by_cases hp : weekday (last + (n : Int) + 1) ≠ 6
    · rw [if_pos hp, Finset.card_insert_of_not_mem (by simp [Finset.mem_Ioc])]
      have hsingle :
          List.countP (fun (d : Nat) => weekday (last + (d : Int)) != 6) [1 + 1 * n] = 1 := by
        simp only [List.countP_cons, List.countP_nil, helt]
        simp [bne_iff_ne, ← add_assoc, hp]
      rw [hsingle, ← countInc, ih]
    · rw [if_neg hp]
      push_neg at hp
      have hsingle :
          List.countP (fun (d : Nat) => weekday (last + (d : Int)) != 6) [1 + 1 * n] = 0 := by
        simp only [List.countP_cons, List.countP_nil, helt]
        simp [bne_iff_ne, ← add_assoc, hp]
      rw [hsingle, ← countInc, ih]
      omega

/-- When today is not a rest day, the scan over a nonempty range finds at
least the final day, so the increment is nonzero. -/
lemma countInc_ne_zero (last : Int) (days : Nat) (hpos : 0 < days)
    (hlast : weekday (last + (days : Int)) ≠ 6) : countInc last days ≠ 0 := by
  have : 0 < countInc last days := by
    rw [countInc, List.countP_pos_iff]
    refine ⟨days, ?_, ?_⟩
    · rw [List.mem_range'_1]
      omega
    · simp [bne_iff_ne, hlast]
  omega

/-! ## C2: accrual arithmetic -/

/-- C2: for every record with `lastUpdated` strictly before `today`, when
`today` is not the rest day, `auto_increment` adds exactly the number of
non-rest days of the open-closed interval `(lastUpdated, today]` to its
lectures and stamps `lastUpdated = today`, leaving later-dated records
alone; when `today` is the rest day nothing changes; and for
`lastUpdated` = 2024-01-01 (day 0, a Monday) and `today` = 2024-01-08
(day 7) the increment is 6. -/
theorem auto_increment_correct (df : List Record) (today : Int) :
    (weekday today = 6 → auto_increment df today = df) ∧
    (weekday today ≠ 6 →
      auto_increment df today = df.map (fun r =>
        if r.lastUpdated < today then
          { subject := r.subject,
            lectures := r.lectures +
              ((((Finset.Ioc r.lastUpdated today).filter (fun x => weekday x ≠ 6)).card : Nat) : Int),
            lastUpdated := today }
        else r)) ∧
    auto_increment [⟨"Math", 5, 0⟩] 7 = [⟨"Math", 11, 7⟩] := by
  refine ⟨fun h => by simp [auto_increment, h], fun h => ?_, by decide⟩
  rw [auto_increment, if_neg h]
  refine List.map_congr_left (fun r _ => ?_)
  by_cases hl : r.lastUpdated < today
  · have hd : today - r.lastUpdated > 0 := by omega
    have hcast : (((today - r.lastUpdated).toNat : Nat) : Int) = today - r.lastUpdated :=
      Int.toNat_of_nonneg (by omega)
    have hlast : weekday (r.lastUpdated + ((today - r.lastUpdated).toNat : Int)) ≠ 6 := by
      rw [hcast]
      simpa using h
    have hne := countInc_ne_zero r.lastUpdated (today - r.lastUpdated).toNat (by omega) hlast
    rw [accrue_record]
    simp only [if_pos hd, if_pos hne, if_pos hl]
    have := countInc_eq_card r.lastUpdated (today - r.lastUpdated).toNat
    rw [this, hcast] at *
    have harg : r.lastUpdated + (today - r.lastUpdated) = today := by ring
    rw [harg]
  · have hd : ¬ (today - r.lastUpdated > 0) := by omega
    rw [accrue_record]
    simp only [if_neg hd, if_neg hl]

/-- Witness for C2: the rest-day-exclusion instance of the claim, with the
non-rest-day hypothesis discharged at `today = 7`. -/
theorem auto_increment_correct_witness :
    weekday 7 ≠ 6 ∧
    auto_increment [⟨"Math", 5, 0⟩] 7 = [⟨"Math", 5, 0⟩].map (fun r =>
      if r.lastUpdated < 7 then
        { subject := r.subject,
          lectures := r.lectures +
            ((((Finset.Ioc r.lastUpdated 7).filter (fun x => weekday x ≠ 6)).card : Nat) : Int),
          lastUpdated := 7 }
      else r) :=
  ⟨by decide, (auto_increment_correct [⟨"Math", 5, 0⟩] 7).2.1 (by decide)⟩

/-! ## C5: idempotence of accrual within a day -/

/-- Applying the per-row accrual twice with the same `today` is the same as
applying it once: a row it updates gets `lastUpdated = today`, so the second
pass sees `days = 0` and skips it. -/
lemma accrue_record_idem (today : Int) (r : Record) :
    accrue_record today (accrue_record today r) = accrue_record today r := by
  by_cases hd : today - r.lastUpdated > 0
  · by_cases hi : countInc r.lastUpdated (today - r.lastUpdated).toNat ≠ 0
    · have h1 : accrue_record today r =
          { subject := r.subject,
            lectures := r.lectures + ((countInc r.lastUpdated (today - r.lastUpdated).toNat : Nat) : Int),
            lastUpdated := today } := by
        rw [accrue_record]
        simp only [if_pos hd, if_pos hi]
      rw [h1]
      rw [accrue_record]
      simp
    · have h1 : accrue_record today r = r := by
        rw [accrue_record]
        simp only [if_pos hd, if_neg hi]
      rw [h1]
      exact h1
  · have h1 : accrue_record today r = r := by
      rw [accrue_record]
      simp only [if_neg hd]
    rw [h1]
    exact h1

/-- C5: `auto_increment` is idempotent for a fixed `today`: a second run
with the same date leaves every record exactly as the first run left it. -/
theorem auto_increment_idempotent (df : List Record) (today : Int) :
    auto_increment (auto_increment df today) today = auto_increment df today := by
  by_cases hw : weekday today = 6
  · simp [auto_increment, hw]
  · simp only [auto_increment, if_neg hw, List.map_map]
    exact List.map_congr_left (fun r _ => accrue_record_idem today r)

/-! ## C4: the `lectures >= 0` invariant -/

/-- Every record of the list has non-negative lectures. -/
def allNonneg (df : List Record) : Bool :=
  df.all (fun r => 0 ≤ r.lectures)

/-- `allNonneg` through the fallible result of `mark_done` (an absent
subject leaves no record set to check). -/
def allNonnegOpt : Option (List Record) → Bool
  | none => true
  | some df => allNonneg df

/-- `allNonneg` through the fallible result of `add_form` (a rejected
submission leaves the record set unchanged, so there is nothing new to
check). -/
def allNonnegAdd : Except AddErr (List Record) → Bool
  | Except.error _ => true
  | Except.ok df => allNonneg df

lemma accrue_record_nonneg (today : Int) (r : Record) (h : 0 ≤ r.lectures) :
    0 ≤ (accrue_record today r).lectures := by
  by_cases hd : today - r.lastUpdated > 0
  · by_cases hi : countInc r.lastUpdated (today - r.lastUpdated).toNat ≠ 0
    · rw [accrue_record]
      simp only [if_pos hd, if_pos hi]
      omega
    · rw [accrue_record]
      simp only [if_pos hd, if_neg hi]
      exact h
  · rw [accrue_record]
    simp only [if_neg hd]
    exact h

/-- C4: starting from a record set whose lectures are all non-negative,
each of `auto_increment`, `mark_done` and `add_form` (the latter fed a
non-negative starting backlog, which the form's `min_value=0` input
enforces) again yields a record set whose lectures are all non-negative;
in particular `mark_done` never produces a negative count. -/
theorem lectures_nonneg_invariant (df : List Record) (today : Int)
    (subject ns : String) (done nb : Int)
    (hdf : allNonneg df = true) (hnb : 0 ≤ nb) :
    allNonneg (auto_increment df today) = true ∧
    allNonnegOpt (mark_done df subject done today) = true ∧
    allNonnegAdd (add_form df ns nb today) = true := by
  rw [allNonneg, List.all_eq_true] at hdf
  refine ⟨?_, ?_, ?_⟩
  · rw [auto_increment]
    split
    · rw [allNonneg, List.all_eq_true]
      exact hdf
    · rw [allNonneg, List.all_eq_true]
      intro x hx
      rw [List.mem_map] at hx
      obtain ⟨r, hr, hrx⟩ := hx
      rw [← hrx]
      have := accrue_record_nonneg today r (by simpa using hdf r hr)
      simpa using this
  · cases hfi : df.findIdx? (fun r => r.subject == subject) with
    | none => simp [mark_done, hfi, allNonnegOpt]
    | some idx =>
      cases hg : df[idx]? with
      | none => simp [mark_done, hfi, hg, allNonnegOpt]
      | some r =>
        simp only [mark_done, hfi, hg, allNonnegOpt, allNonneg, List.all_eq_true]
        intro x hx
        rcases List.mem_or_eq_of_mem_set hx with hmem | hset
        · exact hdf x hmem
        · rw [hset]
          simp only [decide_eq_true_eq]
          split
          · exact le_max_left _ _
          · exact le_max_left _ _
  · rw [add_form]
    split
    · rfl
    · split
      · rfl
      · simp only [allNonnegAdd, allNonneg, List.all_eq_true]
        intro x hx
        rcases List.mem_append.mp hx with hmem | hnew
        · exact hdf x hmem
        · rw [List.mem_singleton] at hnew
          rw [hnew]
          simpa using hnb

/-- Witness for C4 at a concrete record set and inputs. -/
theorem lectures_nonneg_invariant_witness :
    allNonneg [⟨"Math", 5, 0⟩] = true ∧ (0 : Int) ≤ 2 ∧
    (allNonneg (auto_increment [⟨"Math", 5, 0⟩] 1) = true ∧
      allNonnegOpt (mark_done [⟨"Math", 5, 0⟩] "Math" 3 1) = true ∧
      allNonnegAdd (add_form [⟨"Math", 5, 0⟩] "Phy" 2 1) = true) :=
  ⟨by decide, by decide,
    lectures_nonneg_invariant [⟨"Math", 5, 0⟩] 1 "Math" "Phy" 3 2 (by decide) (by decide)⟩

/-! ## C10: frame property of `mark_done` -/

/-- C10: `mark_done` touches at most the first row matching the named
subject: the row count is preserved and every other position holds exactly
the record it held before. -/
theorem mark_done_frame (df : List Record) (subject : String) (done today : Int)
    (df' : List Record) (h : mark_done df subject done today = some df') :
    df'.length = df.length ∧
    ∃ idx, df.findIdx? (fun r => r.subject == subject) = some idx ∧
      ∀ j, j ≠ idx → df'[j]? = df[j]? := by
  cases hfi : df.findIdx? (fun r => r.subject == subject) with
  | none =>
    simp only [mark_done, hfi] at h
    exact Option.noConfusion h
  | some idx =>
    cases hg : df[idx]? with
    | none =>
      simp only [mark_done, hfi, hg] at h
      exact Option.noConfusion h
    | some r =>
      simp only [mark_done, hfi, hg, Option.some.injEq] at h
      refine ⟨?_, idx, rfl, ?_⟩
      · rw [← h, List.length_set]
      · intro j hj
        rw [← h, List.getElem?_set_ne (Ne.symm hj)]

/-- Witness for C10 at a two-subject record set. -/
theorem mark_done_frame_witness :
    mark_done [⟨"Math", 5, 0⟩, ⟨"Phy", 3, 0⟩] "Math" 2 1 =
      some [⟨"Math", 4, 1⟩, ⟨"Phy", 3, 0⟩] ∧
    ([⟨"Math", 4, 1⟩, ⟨"Phy", 3, 0⟩] : List Record).length =
      ([⟨"Math", 5, 0⟩, ⟨"Phy", 3, 0⟩] : List Record).length ∧
    ∃ idx, ([⟨"Math", 5, 0⟩, ⟨"Phy", 3, 0⟩] : List Record).findIdx?
        (fun r => r.subject == "Math") = some idx ∧
      ∀ j, j ≠ idx →
        ([⟨"Math", 4, 1⟩, ⟨"Phy", 3, 0⟩] : List Record)[j]? =
          ([⟨"Math", 5, 0⟩, ⟨"Phy", 3, 0⟩] : List Record)[j]? :=
  ⟨by decide,
    mark_done_frame [⟨"Math", 5, 0⟩, ⟨"Phy", 3, 0⟩] "Math" 2 1
      [⟨"Math", 4, 1⟩, ⟨"Phy", 3, 0⟩] (by decide)⟩

/-! ## C1: effect of `mark_done` on the named subject -/

/-- C1 counterexample: on a non-rest day with `done = 0` the code computes
`max(0, 5 - (0 - 1)) = 6`, so the lectures increase by one, while the claim
predicts a net reduction of `max(0, 0 - 1) = 0`, i.e. an unchanged count of
5: the claimed result differs from the computed one. -/
theorem mark_done_zero_done_increases :
    mark_done [⟨"Math", 5, 0⟩] "Math" 0 1 = some [⟨"Math", 6, 1⟩] ∧
    ¬ ((6 : Int) = 5 - max 0 (0 - 1)) :=
  ⟨by decide, by decide⟩

/-- C1 amended: for a present subject, `mark_done` sets the first matching
row's lectures to `max 0 (lectures - unitsCompleted)` when today is the
rest day and to `max 0 (lectures - (unitsCompleted - 1))` otherwise — on a
non-rest day the net reduction is `unitsCompleted - 1`, which for
`unitsCompleted = 0` is an increase by one — and stamps its
`lastUpdated = today`, the clamp keeping the result non-negative. -/
theorem mark_done_correct (df : List Record) (subject : String) (done today : Int)
    (idx : Nat) (r : Record)
    (hidx : df.findIdx? (fun t => t.subject == subject) = some idx)
    (hr : df[idx]? = some r) :
    mark_done df subject done today =
      some (df.set idx
        { subject := r.subject,
          lectures := max 0 (r.lectures - (if weekday today = 6 then done else done - 1)),
          lastUpdated := today }) ∧
    0 ≤ max (0 : Int) (r.lectures - (if weekday today = 6 then done else done - 1)) := by
  constructor
  · simp only [mark_done, hidx, hr, Option.some.injEq]
    by_cases hw : weekday today = 6
    · simp only [if_pos hw]
    · simp only [if_neg hw]
  · exact le_max_left _ _

/-- Witness for C1 (amended) on a rest day: `max(0, 5 - 2) = 3`. -/
theorem mark_done_correct_witness :
    mark_done [⟨"Math", 5, 0⟩] "Math" 2 6 =
      some (([⟨"Math", 5, 0⟩] : List Record).set 0
        { subject := "Math",
          lectures := max 0 ((5 : Int) - (if weekday 6 = 6 then 2 else 2 - 1)),
          lastUpdated := 6 }) ∧
    0 ≤ max (0 : Int) ((5 : Int) - (if weekday 6 = 6 then 2 else 2 - 1)) :=
  mark_done_correct [⟨"Math", 5, 0⟩] "Math" 2 6 0 ⟨"Math", 5, 0⟩ (by decide) (by decide)

/-! ## C6: records dated in the future -/

/-- C6 counterexample: with `lastUpdated = 10` strictly after `today = 3`,
`auto_increment` raises nothing — `daysPassed` is negative, the `days > 0`
guard is simply false — and returns the record set unchanged. -/
theorem auto_increment_future_no_error :
    auto_increment [⟨"Math", 5, 10⟩] 3 = [⟨"Math", 5, 10⟩] := by decide

/-- C6 amended: a record whose `lastUpdated` is strictly after `today` is
left exactly as it was; `auto_increment` returns normally instead of
failing with `InvalidDateOrder`. -/
theorem auto_increment_future_unchanged (df : List Record) (today : Int)
    (i : Nat) (r : Record) (hi : df[i]? = some r) (hfut : today < r.lastUpdated) :
    (auto_increment df today)[i]? = some r := by
  rw [auto_increment]
  by_cases hw : weekday today = 6
  · rw [if_pos hw]
    exact hi
  · rw [if_neg hw, List.getElem?_map, hi]
    have hd : ¬ (today - r.lastUpdated > 0) := by omega
    have hacc : accrue_record today r = r := by
      rw [accrue_record]
      simp only [if_neg hd]
    simp only [Option.map_some', hacc]

/-- Witness for C6 (amended) at a concrete future-dated record. -/
theorem auto_increment_future_unchanged_witness :
    (auto_increment [⟨"Math", 5, 10⟩] 3)[0]? = some ⟨"Math", 5, 10⟩ :=
  auto_increment_future_unchanged [⟨"Math", 5, 10⟩] 3 0 ⟨"Math", 5, 10⟩
    (by decide) (by decide)

/-! ## C3 and C7: pace-based estimation -/

/-- C3: `estimate_days` computes `weeklyNet = 7*pace - 6`; whenever that is
non-positive the estimate is the infinite value — a value distinct from
every finite one, not an error — and otherwise each record's estimate is
`ceil(lectures * 7 / weeklyNet)`; `lectures = 70` at `pace = 2` gives 62,
and zero lectures give 0 at any positive pace. -/
theorem estimate_days_correct (df : List Record) (pace : Int) :
    (7 * pace - 6 ≤ 0 → ∀ row ∈ estimate_days df pace, row.days = Estimate.infinite) ∧
    (∀ n, (Estimate.infinite : Estimate) ≠ Estimate.finite n) ∧
    (0 < 7 * pace - 6 → ∀ (i : Nat) (r : Record), df[i]? = some r →
      (estimate_days df pace)[i]? = some
        { subject := r.subject,
          days := Estimate.finite ⌈((r.lectures * 7 : Int) : ℚ) / ((7 * pace - 6 : Int) : ℚ)⌉,
          weeks := floordiv7
            (Estimate.finite ⌈((r.lectures * 7 : Int) : ℚ) / ((7 * pace - 6 : Int) : ℚ)⌉) }) ∧
    estimate_days [⟨"M", 70, 0⟩] 2 = [⟨"M", Estimate.finite 62, Estimate.finite 8⟩] ∧
    (0 < pace → estimate_days [⟨"M", 0, 0⟩] pace =
      [⟨"M", Estimate.finite 0, Estimate.finite 0⟩]) := by
  refine ⟨?_, fun n h => Estimate.noConfusion h, ?_, ?_, ?_⟩
  · intro h row hrow
    simp only [estimate_days, List.mem_map] at hrow
    obtain ⟨r, hr, hrr⟩ := hrow
    rw [← hrr]
    have hb : pace * 7 - 6 ≤ 0 := by omega
    simp only [if_pos hb]
  · intro hpos i r hir
    have hcomm : pace * 7 - 6 = 7 * pace - 6 := by ring
    have hb : ¬ (pace * 7 - 6 ≤ 0) := by omega
    simp only [estimate_days, List.getElem?_map, hir, Option.map_some', if_neg hb, hcomm]
    have hb2 : ¬ (7 * pace - 6 ≤ 0) := by omega
    simp only [if_neg hb2]
  · have h : ⌈(70 * 7 / 8 : ℚ)⌉ = 62 := by
      rw [Int.ceil_eq_iff]
      norm_num
    simp [estimate_days, floordiv7]
    refine ⟨h, ?_⟩
    rw [h]
    decide
  · intro hp
    have hb : ¬ ((pace : Int) * 7 ≤ 6) := by omega
    simp [estimate_days, floordiv7, hb]

/-- Witness for C3: the two numeric instances, the second with the
positive-pace hypothesis discharged at `pace = 1`. -/
theorem estimate_days_correct_witness :
    estimate_days [⟨"M", 70, 0⟩] 2 = [⟨"M", Estimate.finite 62, Estimate.finite 8⟩] ∧
    estimate_days [⟨"M", 0, 0⟩] 1 = [⟨"M", Estimate.finite 0, Estimate.finite 0⟩] :=
  ⟨(estimate_days_correct [] 2).2.2.2.1, (estimate_days_correct [] 1).2.2.2.2 (by decide)⟩

/-- C7 counterexample: at `dailyPace = 0` the code checks nothing — it
returns an estimate row for the record (`Days = inf`, `Weeks~ = inf // 7`,
which is NaN) instead of failing with `InvalidArgument`. -/
theorem estimate_days_zero_pace_returns :
    estimate_days [⟨"Math", 5, 0⟩] 0 =
      [⟨"Math", Estimate.infinite, Estimate.nan⟩] := by decide

/-- C7 amended: for every `dailyPace <= 0`, `estimate_days` returns
normally, producing for every record a row with the infinite `Days`
estimate (since `weeklyNet <= -6`) and the NaN `Weeks~` cell that
`math.inf // 7` yields; no `InvalidArgument` failure exists in the code. -/
theorem estimate_days_nonpos_pace (df : List Record) (pace : Int) (h : pace ≤ 0) :
    estimate_days df pace =
      df.map (fun r => ⟨r.subject, Estimate.infinite, Estimate.nan⟩) := by
  have hb : pace * 7 - 6 ≤ 0 := by omega
  simp only [estimate_days, if_pos hb]
  rfl

/-- Witness for C7 (amended) at `pace = 0`. -/
theorem estimate_days_nonpos_pace_witness :
    estimate_days [⟨"Math", 5, 0⟩] 0 =
      ([⟨"Math", 5, 0⟩] : List Record).map
        (fun r => (⟨r.subject, Estimate.infinite, Estimate.nan⟩ : EstRow)) :=
  estimate_days_nonpos_pace [⟨"Math", 5, 0⟩] 0 (by decide)

/-! ## C9: adding a subject -/

/-- C9 counterexample: the empty subject name is not present in the empty
record set, yet the form does not append it — it rejects the submission
with the empty-name warning instead. -/
theorem add_form_empty_not_appended :
    add_form [] "" 3 0 = Except.error AddErr.emptySubject ∧
    (Except.error AddErr.emptySubject : Except AddErr (List Record)) ≠
      Except.ok [⟨"", 3, 0⟩] :=
  ⟨by decide, by decide⟩

/-- C9 amended: an empty name is rejected outright; a non-empty name
already present (case-sensitive exact match) fails with the duplicate
warning, leaving the record set unchanged; a non-empty name not present is
appended with `lectures = nb` and `lastUpdated = today`. -/
theorem add_form_correct (df : List Record) (ns : String) (nb : Int) (today : Int) :
    (ns = "" → add_form df ns nb today = Except.error AddErr.emptySubject) ∧
    (ns ≠ "" → (∃ r ∈ df, r.subject = ns) →
      add_form df ns nb today = Except.error AddErr.duplicateSubject) ∧
    (ns ≠ "" → (∀ r ∈ df, r.subject ≠ ns) →
      add_form df ns nb today =
        Except.ok (df ++ [{ subject := ns, lectures := nb, lastUpdated := today }])) := by
  refine ⟨fun h => by simp [add_form, h], fun h hdup => ?_, fun h hnodup => ?_⟩
  · have hany : df.any (fun r => r.subject == ns) = true := by
      rw [List.any_eq_true]
      obtain ⟨r, hr, he⟩ := hdup
      exact ⟨r, hr, by simp [he]⟩
    rw [add_form, if_neg h, if_pos hany]
  · have hany : ¬ (df.any (fun r => r.subject == ns) = true) := by
      rw [List.any_eq_true]
      rintro ⟨r, hr, he⟩
      exact hnodup r hr (by simpa using he)
    rw [add_form, if_neg h, if_neg hany]

/-- Witness for C9 (amended): the duplicate "Physics" rejection of the
spec's example and a successful append. -/
theorem add_form_correct_witness :
    add_form [⟨"Physics", 3, 0⟩] "Physics" 5 1 = Except.error AddErr.duplicateSubject ∧
    add_form [⟨"Physics", 3, 0⟩] "Math" 2 1 =
      Except.ok [⟨"Physics", 3, 0⟩, ⟨"Math", 2, 1⟩] :=
  ⟨(add_form_correct [⟨"Physics", 3, 0⟩] "Physics" 5 1).2.1 (by decide) (by decide),
    (add_form_correct [⟨"Physics", 3, 0⟩] "Math" 2 1).2.2 (by decide) (by decide)⟩

/-! ## C8: store failures are swallowed, not propagated -/

/-- C8 (the code contradicts the claim): when the Sheets write raises,
`save_backlog` converts the failure into a warning and returns success, and
`log_history` discards it silently via its bare `except: pass` — neither
propagates any error to the caller. -/
theorem store_failures_swallowed :
    (save_backlog true true).sheetFailed = true ∧
    (save_backlog true true).raised = false ∧
    (save_backlog true true).warned = true ∧
    (log_history [] 0 5 true true).1.sheetFailed = true ∧
    (log_history [] 0 5 true true).1.raised = false ∧
    (log_history [] 0 5 true true).1.warned = false := by decide
